import Mathlib

/-!
Shallow embedding of the Avellaneda-Stoikov market-making engine
(`src/strategies/avellaneda_stoikov.rs`) together with proofs about its
rolling market-data window, turnover mean, quote-offset model, risk state
machine and account handler.  Floating-point (`f64`) values are modelled
over `ℝ`; `u64` values over `ℕ`, with the wrap-around of `u64`
subtraction made explicit (`wsub`) where the source subtracts.  Fallible
operations (the `unwrap` calls) are modelled with `Option`.  The external
intensity calibrator is consumed only through its estimate, which is
passed to `on_tick` as an input, exactly as the spec scopes it.
-/

namespace Rainmaker

noncomputable section

/-- A `BookTickerEvent` market tick: transaction time in milliseconds and
best ask/bid prices and quantities. -/
structure BookTickerEvent where
  transaction_time : ℕ
  best_ask : ℝ
  best_ask_qty : ℝ
  best_bid : ℝ
  best_bid_qty : ℝ

/-- The rolling market-statistics window `StrategyData`: nine parallel
series (`VecDeque`s in the source; here lists with the head as the front
of the deque). -/
structure StrategyData where
  capacity : ℕ
  timestamp : List ℕ
  ask_price : List ℝ
  ask_qty : List ℝ
  bid_price : List ℝ
  bid_qty : List ℝ
  wap : List ℝ
  imb : List ℝ
  spread : List ℝ
  tv : List ℝ

/-- `StrategyData::with_capacity`: an empty window of the given capacity. -/
def StrategyData.with_capacity (capacity : ℕ) : StrategyData :=
  ⟨capacity, [], [], [], [], [], [], [], [], []⟩

/-- The size-weighted average price of a tick, exactly as computed inside
`StrategyData::push`. -/
def wapOf (e : BookTickerEvent) : ℝ :=
  (e.best_bid * e.best_ask_qty + e.best_ask * e.best_bid_qty) /
    (e.best_bid_qty + e.best_ask_qty)

/-- `StrategyData::push`: when the window is at capacity, pop the front of
every series; then push the raw tick fields and the derived `wap`, `imb`,
`spread` and `tv` values.  `tv` divides by the front of the `wap` series
as it stands after the push. -/
def StrategyData.push (s : StrategyData) (e : BookTickerEvent) : StrategyData :=
  let s1 : StrategyData :=
    if s.timestamp.length > s.capacity - 1 then
      { s with
          timestamp := s.timestamp.tail, ask_price := s.ask_price.tail,
          ask_qty := s.ask_qty.tail, bid_price := s.bid_price.tail,
          bid_qty := s.bid_qty.tail, wap := s.wap.tail, imb := s.imb.tail,
          spread := s.spread.tail, tv := s.tv.tail }
    else s
  let wap := wapOf e
  let imb := e.best_bid_qty / (e.best_bid_qty + e.best_ask_qty)
  let spread := e.best_ask - e.best_bid
  let waps := s1.wap ++ [wap]
  let tv := |wap / waps.headI - 1| + spread / wap
  { capacity := s.capacity,
    timestamp := s1.timestamp ++ [e.transaction_time],
    ask_price := s1.ask_price ++ [e.best_ask],
    ask_qty := s1.ask_qty ++ [e.best_ask_qty],
    bid_price := s1.bid_price ++ [e.best_bid],
    bid_qty := s1.bid_qty ++ [e.best_bid_qty],
    wap := waps,
    imb := s1.imb ++ [imb],
    spread := s1.spread ++ [spread],
    tv := s1.tv ++ [tv] }

/-- The engine's position snapshot. -/
structure Position where
  symbol : String
  position_amount : ℝ
  entry_price : ℝ

/-- The ask/bid quote offsets returned by `calculate_spread`. -/
structure Spread where
  ask : ℝ
  bid : ℝ

/-- Exchange-command calls issued by the engine (the order orchestration
surface; the constant `PositionSide::Both` / `TimeInForce::GTC` arguments
of the limit orders are omitted since every call passes the same ones). -/
inductive Action where
  | cancelAll (pair : String)
  | marketSell (pair : String) (qty : ℝ)
  | marketBuy (pair : String) (qty : ℝ)
  | limitSell (pair : String) (qty : ℝ) (price : ℝ)
  | limitBuy (pair : String) (qty : ℝ) (price : ℝ)

/-- The engine state of `AvellanedaStoikov` (the external handles
`config`, `account_client` and `ie` carry no engine state and are
omitted; the calibrator's estimate is an input of `on_tick`). -/
structure AvellanedaStoikov where
  start_time : ℕ
  timer : ℕ
  strategy_data : StrategyData
  base_asset : String
  quote_asset : String
  pair : String
  order_qty : ℝ
  tick_size : ℝ
  tick_round : ℕ
  n_spreads : ℕ
  estimate_window : ℕ
  period : ℕ
  gamma : ℝ
  sigma_multiplier : ℝ
  sigma : ℝ
  buy_a : ℝ
  buy_k : ℝ
  sell_a : ℝ
  sell_k : ℝ
  position : Position
  cash : ℝ
  total_profit : ℝ
  stoploss : ℝ
  stoploss_sleep : ℕ
  stopprofit : ℝ
  in_stoploss : Bool
  unrealized_pnl : ℝ
  q_max : ℝ

/-- `calculate_tv_mean`: the arithmetic mean of the resident `tv` values,
`none` on an empty window. -/
def AvellanedaStoikov.calculate_tv_mean (s : AvellanedaStoikov) : Option ℝ :=
  if s.strategy_data.tv.length > 0 then
    some (s.strategy_data.tv.sum / (s.strategy_data.tv.length : ℝ))
  else none

/-- The bid offset computed in `calculate_spread` (source lines 499-503);
`k`/`a` are instantiated with the sell-side intensities there. -/
def bidOffset (gamma sigma_fix q k a : ℝ) : ℝ :=
  Real.log (1 + gamma / k) / gamma +
    (q + 0.5) *
      Real.sqrt (sigma_fix * sigma_fix * gamma / (2 * k * a) *
        Real.rpow (1 + gamma / k) (1 + k / gamma))

/-- The ask offset computed in `calculate_spread` (source lines 505-509);
`k`/`a` are instantiated with the buy-side intensities there. -/
def askOffset (gamma sigma_fix q k a : ℝ) : ℝ :=
  Real.log (1 + gamma / k) / gamma -
    (q - 0.5) *
      Real.sqrt (sigma_fix * sigma_fix * gamma / (2 * k * a) *
        Real.rpow (1 + gamma / k) (1 + k / gamma))

/-- `calculate_spread`: overwrite `sigma` with the mean turnover (a side
effect on the engine state) and return the ask/bid offsets built from the
refreshed `sigma`, the inventory ratio and the per-side intensities.
`none` models the `unwrap` panic on an empty window. -/
def AvellanedaStoikov.calculate_spread (s : AvellanedaStoikov) :
    Option (Spread × AvellanedaStoikov) :=
  match s.calculate_tv_mean with
  | none => none
  | some tvMean =>
    let s' := { s with sigma := tvMean }
    let sigma_fix := s'.sigma * s'.sigma_multiplier
    let q_fix := s'.position.position_amount / s'.order_qty
    some (⟨askOffset s'.gamma sigma_fix q_fix s'.buy_k s'.buy_a,
           bidOffset s'.gamma sigma_fix q_fix s'.sell_k s'.sell_a⟩, s')

/-- Wrap-around `u64` subtraction `a - b` (release-build semantics), for
`a`, `b` below `2 ^ 64`. -/
def wsub (a b : ℕ) : ℕ := (a + 2 ^ 64 - b) % 2 ^ 64

/-- The unrealized-PnL update performed at the top of the quoting branch
of `on_tick` (source lines 246-256): long positions take the wap/entry
ratio minus one, short positions its negation, a flat position keeps the
previous value. -/
def pnlUpdate (prev lw p entry : ℝ) : ℝ :=
  if p > 0 then lw * p / (entry * p) - 1
  else if p < 0 then -(lw * p / (entry * p) - 1)
  else prev

/-- Modelled from the spec: `util::round_to` (its code is outside this
file) rounds a price to the decimal precision implied by the tick size,
i.e. to the nearest multiple of `10 ^ (-d)`. -/
def roundTo (x : ℝ) (d : ℕ) : ℝ :=
  ((round (x * 10 ^ d) : ℤ) : ℝ) / 10 ^ d

/-- Push the incoming tick into the engine's rolling window (source line
230). -/
def pushState (s : AvellanedaStoikov) (e : BookTickerEvent) : AvellanedaStoikov :=
  { s with strategy_data := s.strategy_data.push e }

/-- Store the calibrator's intensity estimate, floor-shifted by the
epsilon `1e-7` (source lines 235-240). -/
def setAk (s : AvellanedaStoikov) (ba bk sa sk : ℝ) : AvellanedaStoikov :=
  { s with
      buy_a := ba + 1e-7, buy_k := bk + 1e-7,
      sell_a := sa + 1e-7, sell_k := sk + 1e-7 }

/-- The quoting branch of `on_tick` (source lines 245-404): update the
unrealized PnL, then either trigger the stoploss (cancel, flatten by a
market order, zero the PnL, raise the flag and stamp `timer`), fire the
stop-profit exit, re-quote both sides, or do nothing. -/
def quotingStep (s : AvellanedaStoikov) (e : BookTickerEvent) (spr : Spread) :
    AvellanedaStoikov × List Action :=
  let p := s.position.position_amount
  let lw := s.strategy_data.wap.getLastD 0
  let pnl := pnlUpdate s.unrealized_pnl lw p s.position.entry_price
  let s3 := { s with unrealized_pnl := pnl }
  if pnl < -s.stoploss then
    ({ s3 with
        unrealized_pnl := 0, in_stoploss := true,
        timer := e.transaction_time / 1000 },
     Action.cancelAll s.pair ::
       (if p > 0 then [Action.marketSell s.pair p]
        else [Action.marketBuy s.pair (abs p)]))
  else if pnl > s.stopprofit ∧
      s.timer ≤ wsub (e.transaction_time / 1000) (s.period / 1000) then
    (s3,
     Action.cancelAll s.pair ::
       (if p > 0 then
          [Action.limitSell s.pair p (s.strategy_data.ask_price.getLastD 0)]
        else if p < 0 then
          [Action.limitBuy s.pair (abs p) (s.strategy_data.bid_price.getLastD 0)]
        else []))
  else if s.timer ≤ wsub (e.transaction_time / 1000) (s.period / 1000) then
    ({ s3 with timer := e.transaction_time / 1000 },
     [Action.cancelAll s.pair,
      Action.limitBuy s.pair s.order_qty (roundTo (lw - spr.bid) s.tick_round),
      Action.limitSell s.pair s.order_qty (roundTo (lw + spr.ask) s.tick_round)])
  else (s3, [])

/-- The stoploss-cooldown branch of `on_tick` (source lines 405-412):
clear the flag once the sleep has elapsed on the truncated-second clock,
otherwise wait. -/
def cooldownStep (s : AvellanedaStoikov) (e : BookTickerEvent) :
    AvellanedaStoikov × List Action :=
  if s.timer ≤ wsub (e.transaction_time / 1000) (s.stoploss_sleep / 1000) then
    ({ s with in_stoploss := false }, [])
  else (s, [])

/-- `on_tick`: push the tick into the window; when the intensity
calibrator is ready its estimate is the quadruple
`(buy_a, buy_k, sell_a, sell_k)` in `ii`, and the engine clamps the
intensities, recomputes the spread and runs the risk state machine.
`none` models the `unwrap` panic inside `calculate_spread`. -/
def AvellanedaStoikov.on_tick (s : AvellanedaStoikov) (e : BookTickerEvent)
    (ii : Option (ℝ × ℝ × ℝ × ℝ)) : Option (AvellanedaStoikov × List Action) :=
  let s0 := pushState s e
  match ii with
  | none => some (s0, [])
  | some (ba, bk, sa, sk) =>
    let s1 := setAk s0 ba bk sa sk
    match s1.calculate_spread with
    | none => none
    | some (spr, s2) =>
      some (if s2.in_stoploss = false then quotingStep s2 e spr
            else cooldownStep s2 e)

/-- A balance entry of an account-update event. -/
structure Balance where
  asset : String
  cross_wallet_balance : ℝ

/-- A position entry of an account-update event. -/
structure AccountPosition where
  symbol : String
  position_side : String
  position_amount : ℝ
  entry_price : ℝ

/-- The payload of an account-update event. -/
structure AccountUpdate where
  balances : List Balance
  positions : List AccountPosition

/-- An account-update event. -/
structure AccountUpdateEvent where
  account_update : AccountUpdate

/-- `on_account` (source lines 419-450): refresh `cash` from any balance
entry whose asset equals the concatenated pair string, and refresh the
position from the entry matching the pair with side `BOTH`, keeping the
previous values when absent. -/
def AvellanedaStoikov.on_account (s : AvellanedaStoikov)
    (d : AccountUpdateEvent) : AvellanedaStoikov :=
  let cash := d.account_update.balances.foldl
    (fun c b => if b.asset = s.pair then b.cross_wallet_balance else c) s.cash
  let tmp_q := (d.account_update.positions.find?
    (fun x => x.symbol == s.pair && x.position_side == "BOTH")).map
      AccountPosition.position_amount
  let entry_price := (d.account_update.positions.find?
    (fun x => x.symbol == s.pair && x.position_side == "BOTH")).map
      AccountPosition.entry_price
  { s with
      cash := cash,
      position := { s.position with
                      entry_price := entry_price.getD s.position.entry_price,
                      position_amount := tmp_q.getD s.position.position_amount } }

/-- Projection: the unrealized PnL of an `on_tick` result. -/
def pnlAfter : Option (AvellanedaStoikov × List Action) → Option ℝ
  | none => none
  | some p => some p.1.unrealized_pnl

/-- Projection: the stoploss flag of an `on_tick` result. -/
def inStoplossAfter : Option (AvellanedaStoikov × List Action) → Option Bool
  | none => none
  | some p => some p.1.in_stoploss

/-- Projection: the `timer` of an `on_tick` result. -/
def timerAfter : Option (AvellanedaStoikov × List Action) → Option ℕ
  | none => none
  | some p => some p.1.timer

/-- Projection: the exchange calls issued by an `on_tick` result. -/
def actionsAfter : Option (AvellanedaStoikov × List Action) → Option (List Action)
  | none => none
  | some p => some p.2

/-- Projection: the `sigma` field of a `calculate_spread` result. -/
def sigmaAfterSpread : Option (Spread × AvellanedaStoikov) → Option ℝ
  | none => none
  | some p => some p.2.sigma

/-- The bid-offset formula as written in the spec
(`ln(1 + γ/K_sell)/γ + (q + 0.5) · sqrt(σ_fix²·γ / (2·K_sell·A_sell) ·
(1+γ/K_sell)^(1+K_sell/γ))`), transcribed for the refinement comparison
of claim C3. -/
def specBidOffset (gamma sigma_fix q k a : ℝ) : ℝ :=
  Real.log (1 + gamma / k) / gamma +
    (q + 0.5) *
      Real.sqrt (sigma_fix ^ 2 * gamma / (2 * k * a) *
        Real.rpow (1 + gamma / k) (1 + k / gamma))

/-- The ask-offset formula as written in the spec
(`ln(1 + γ/K_buy)/γ − (q − 0.5) · sqrt(σ_fix²·γ / (2·K_buy·A_buy) ·
(1+γ/K_buy)^(1+K_buy/γ))`), transcribed for the refinement comparison of
claim C3. -/
def specAskOffset (gamma sigma_fix q k a : ℝ) : ℝ :=
  Real.log (1 + gamma / k) / gamma -
    (q - 0.5) *
      Real.sqrt (sigma_fix ^ 2 * gamma / (2 * k * a) *
        Real.rpow (1 + gamma / k) (1 + k / gamma))

/-- A concrete engine state used by the example theorems: long 5 units
entered at 100, stoploss 2%, stop-profit 1%, one-second period, one-second
stoploss sleep, empty window of capacity 3. -/
def egEngine : AvellanedaStoikov :=
  { start_time := 0, timer := 0,
    strategy_data := StrategyData.with_capacity 3,
    base_asset := "BTC", quote_asset := "USDT", pair := "BTCUSDT",
    order_qty := 5, tick_size := 0.01, tick_round := 2,
    n_spreads := 10, estimate_window := 1000, period := 1000,
    gamma := 0.1, sigma_multiplier := 1, sigma := 1,
    buy_a := 0.4, buy_k := 0.2, sell_a := 0.4, sell_k := 0.2,
    position := ⟨"BTCUSDT", 5, 100⟩,
    cash := 0, total_profit := 0, stoploss := 0.02,
    stoploss_sleep := 1000, stopprofit := 0.01,
    in_stoploss := false, unrealized_pnl := 0, q_max := 1 }

/-- A tick at one second whose wap is 97. -/
def egT97 : BookTickerEvent := ⟨1000, 97, 1, 97, 1⟩

/-- A tick at one second whose wap is 100. -/
def egT100 : BookTickerEvent := ⟨1000, 100, 1, 100, 1⟩

/-- A tick at 2000 ms. -/
def egT2000 : BookTickerEvent := ⟨2000, 97, 1, 97, 1⟩

/-- A tick at 9000 ms. -/
def egT9000 : BookTickerEvent := ⟨9000, 97, 1, 97, 1⟩

/-- An engine inside the stoploss cooldown whose `timer` was stamped by a
trigger tick at 1999 ms (`1999 / 1000 = 1` seconds), with a 1000 ms
stoploss sleep. -/
def egCooldown : AvellanedaStoikov :=
  { egEngine with in_stoploss := true, timer := 1999 / 1000 }

/-- An engine inside the stoploss cooldown with `timer = 5` s and a
3000 ms stoploss sleep. -/
def egCooldownW : AvellanedaStoikov :=
  { egEngine with in_stoploss := true, timer := 5, stoploss_sleep := 3000 }

/-- A one-observation window whose turnover series is `[1/2]`. -/
def egWindow1 : StrategyData :=
  ⟨3, [0], [101], [1], [100], [1], [1005 / 10], [1 / 2], [1], [1 / 2]⟩

/-- An engine whose window already holds one observation and whose
`sigma` is 1. -/
def egEngineW1 : AvellanedaStoikov :=
  { egEngine with strategy_data := egWindow1 }

/-- The identical tick of the spec's Example 1: bid 100, ask 101, both
quantities 1. -/
def c5tick : BookTickerEvent := ⟨0, 101, 1, 100, 1⟩

/-- Four identical pushes of `c5tick` into an empty window of
capacity 3 (the spec's Example 1). -/
def c5window : StrategyData :=
  ((((StrategyData.with_capacity 3).push c5tick).push c5tick).push
    c5tick).push c5tick

/-- A first tick for the window-shape example. -/
def c4tick1 : BookTickerEvent := ⟨1, 101, 1, 100, 1⟩

/-- A second tick for the window-shape example. -/
def c4tick2 : BookTickerEvent := ⟨2, 102, 2, 99, 1⟩

/-- An account update holding a single balance entry for the quote asset
alone. -/
def egAccountQuote : AccountUpdateEvent := ⟨⟨[⟨"USDT", 7⟩], []⟩⟩

/-- A two-tick push sequence for the window-shape witness. -/
def c4evs : List BookTickerEvent := [c4tick1, c4tick2]

/-- The engine state reached on a calibration-ready tick right after the
window push, the intensity clamp and the `sigma` refresh performed by
`calculate_spread`, i.e. the state the risk state machine runs on. -/
def readyState (s : AvellanedaStoikov) (e : BookTickerEvent)
    (ba bk sa sk : ℝ) : AvellanedaStoikov :=
  { setAk (pushState s e) ba bk sa sk with
      sigma := (s.strategy_data.push e).tv.sum /
        ((s.strategy_data.push e).tv.length : ℝ) }

/-- The quote offsets computed on a calibration-ready tick. -/
def readySpread (s : AvellanedaStoikov) (e : BookTickerEvent)
    (ba bk sa sk : ℝ) : Spread :=
  ⟨askOffset s.gamma
     ((s.strategy_data.push e).tv.sum /
         ((s.strategy_data.push e).tv.length : ℝ) * s.sigma_multiplier)
     (s.position.position_amount / s.order_qty) (bk + 1e-7) (ba + 1e-7),
   bidOffset s.gamma
     ((s.strategy_data.push e).tv.sum /
         ((s.strategy_data.push e).tv.length : ℝ) * s.sigma_multiplier)
     (s.position.position_amount / s.order_qty) (sk + 1e-7) (sa + 1e-7)⟩

end

lemma push_tv_ne_nil (s : StrategyData) (e : BookTickerEvent) :
    (s.push e).tv ≠ [] := by
  simp [StrategyData.push]

lemma calculate_tv_mean_of_ne (s : AvellanedaStoikov)
    (h : s.strategy_data.tv ≠ []) :
    s.calculate_tv_mean =
      some (s.strategy_data.tv.sum / (s.strategy_data.tv.length : ℝ)) := by
  have hl : 0 < s.strategy_data.tv.length := List.length_pos.mpr h
  simp [AvellanedaStoikov.calculate_tv_mean, hl]

lemma calculate_spread_of_ne (s : AvellanedaStoikov)
    (h : s.strategy_data.tv ≠ []) :
    s.calculate_spread =
      some (⟨askOffset s.gamma
               (s.strategy_data.tv.sum / (s.strategy_data.tv.length : ℝ) *
                 s.sigma_multiplier)
               (s.position.position_amount / s.order_qty) s.buy_k s.buy_a,
             bidOffset s.gamma
               (s.strategy_data.tv.sum / (s.strategy_data.tv.length : ℝ) *
                 s.sigma_multiplier)
               (s.position.position_amount / s.order_qty) s.sell_k s.sell_a⟩,
            { s with sigma :=
                s.strategy_data.tv.sum / (s.strategy_data.tv.length : ℝ) }) := by
  rw [AvellanedaStoikov.calculate_spread, calculate_tv_mean_of_ne s h]

lemma push_wap_last (s : StrategyData) (e : BookTickerEvent) :
    (s.push e).wap.getLastD 0 = wapOf e := by
  simp only [StrategyData.push, List.getLastD_concat]

lemma push_wap_last' (s : StrategyData) (e : BookTickerEvent) :
    (s.push e).wap.getLast?.getD 0 = wapOf e := by
  simp [StrategyData.push]

lemma on_tick_ready (s : AvellanedaStoikov) (e : BookTickerEvent)
    (ba bk sa sk : ℝ) :
    s.on_tick e (some (ba, bk, sa, sk)) =
      some (if s.in_stoploss = false then
              quotingStep (readyState s e ba bk sa sk) e
                (readySpread s e ba bk sa sk)
            else cooldownStep (readyState s e ba bk sa sk) e) := by
  have hne : (setAk (pushState s e) ba bk sa sk).strategy_data.tv ≠ [] := by
    simpa [setAk, pushState] using push_tv_ne_nil s.strategy_data e
  simp only [AvellanedaStoikov.on_tick, calculate_spread_of_ne _ hne]
  simp [readyState, readySpread, setAk, pushState]

lemma quotingStep_pnl (s : AvellanedaStoikov) (e : BookTickerEvent)
    (spr : Spread)
    (hns : ¬ (pnlUpdate s.unrealized_pnl (s.strategy_data.wap.getLastD 0)
        s.position.position_amount s.position.entry_price < -s.stoploss)) :
    (quotingStep s e spr).1.unrealized_pnl =
      pnlUpdate s.unrealized_pnl (s.strategy_data.wap.getLastD 0)
        s.position.position_amount s.position.entry_price := by
  simp only [quotingStep]
  split_ifs with h1 h2 <;> rfl

lemma quotingStep_stoploss (s : AvellanedaStoikov) (e : BookTickerEvent)
    (spr : Spread)
    (h : pnlUpdate s.unrealized_pnl (s.strategy_data.wap.getLastD 0)
        s.position.position_amount s.position.entry_price < -s.stoploss) :
    quotingStep s e spr =
      ({ s with
           unrealized_pnl := 0, in_stoploss := true,
           timer := e.transaction_time / 1000 },
       Action.cancelAll s.pair ::
         (if s.position.position_amount > 0 then
            [Action.marketSell s.pair s.position.position_amount]
          else [Action.marketBuy s.pair (abs s.position.position_amount)])) := by
  simp only [quotingStep]
  rw [if_pos h]

lemma wsub_eq_sub (a b : ℕ) (ha : a < 2 ^ 64) (hb : b ≤ a) :
    wsub a b = a - b := by
  have h64 : (2 : ℕ) ^ 64 = 18446744073709551616 := by norm_num
  unfold wsub
  rw [h64]
  omega

/-- Claim C9: `calculate_tv_mean` returns no estimate exactly when the
window is empty, and on a window holding at least one element it returns
the arithmetic mean of the resident `tv` values. -/
theorem c9_mean_turnover (s : AvellanedaStoikov) :
    (s.calculate_tv_mean = none ↔ s.strategy_data.tv = []) ∧
    (s.strategy_data.tv ≠ [] →
      s.calculate_tv_mean =
        some (s.strategy_data.tv.sum / (s.strategy_data.tv.length : ℝ))) := by
  constructor
  · by_cases h : s.strategy_data.tv = []
    · simp [AvellanedaStoikov.calculate_tv_mean, h]
    · simp [calculate_tv_mean_of_ne s h, h]
  · exact calculate_tv_mean_of_ne s

/-- Witness for C9 at a concrete one-element window. -/
theorem c9_mean_turnover_witness :
    egEngineW1.strategy_data.tv ≠ [] ∧
    egEngineW1.calculate_tv_mean =
      some (egEngineW1.strategy_data.tv.sum /
        (egEngineW1.strategy_data.tv.length : ℝ)) :=
  ⟨by simp [egEngineW1, egEngine, egWindow1],
    (c9_mean_turnover egEngineW1).2 (by simp [egEngineW1, egEngine, egWindow1])⟩

/-- Claim C3: for strictly positive inputs the computed bid/ask offsets
equal the spec's closed-form formulas, and at the symmetric example
(γ = 0.1, σ_fix = 0.01, q = 0, A = 0.4, K = 0.2 on both sides) the two
offsets coincide. -/
theorem c3_offsets_match_spec :
    (∀ gamma sigma_fix q buy_a buy_k sell_a sell_k : ℝ,
        0 < gamma → 0 < sigma_fix → 0 < q → 0 < buy_a → 0 < buy_k →
        0 < sell_a → 0 < sell_k →
        bidOffset gamma sigma_fix q sell_k sell_a =
            specBidOffset gamma sigma_fix q sell_k sell_a ∧
          askOffset gamma sigma_fix q buy_k buy_a =
            specAskOffset gamma sigma_fix q buy_k buy_a) ∧
    bidOffset 0.1 0.01 0 0.2 0.4 = askOffset 0.1 0.01 0 0.2 0.4 := by
  constructor
  · intro gamma sigma_fix q buy_a buy_k sell_a sell_k _ _ _ _ _ _ _
    constructor
    · simp [bidOffset, specBidOffset, pow_two]
    · simp [askOffset, specAskOffset, pow_two]
  · simp only [bidOffset, askOffset]
    norm_num

/-- Witness for C3 at concrete positive parameters. -/
theorem c3_offsets_match_spec_witness :
    (0 < (0.1 : ℝ) ∧ 0 < (0.01 : ℝ) ∧ 0 < (1 : ℝ) ∧ 0 < (0.4 : ℝ) ∧
      0 < (0.2 : ℝ)) ∧
    (bidOffset 0.1 0.01 1 0.2 0.4 = specBidOffset 0.1 0.01 1 0.2 0.4 ∧
      askOffset 0.1 0.01 1 0.2 0.4 = specAskOffset 0.1 0.01 1 0.2 0.4) :=
  ⟨⟨by norm_num, by norm_num, by norm_num, by norm_num, by norm_num⟩,
    c3_offsets_match_spec.1 0.1 0.01 1 0.4 0.2 0.4 0.2 (by norm_num)
      (by norm_num) (by norm_num) (by norm_num) (by norm_num) (by norm_num)
      (by norm_num)⟩

/-- Claim C7: holding γ, σ_fix and the (positive) intensity parameters
fixed with σ_fix nonzero, the bid offset is strictly increasing and the
ask offset strictly decreasing in the inventory ratio `q`. -/
theorem c7_offsets_monotone
    (gamma sigma_fix q1 q2 buy_a buy_k sell_a sell_k : ℝ)
    (hg : 0 < gamma) (hs : sigma_fix ≠ 0) (hba : 0 < buy_a) (hbk : 0 < buy_k)
    (hsa : 0 < sell_a) (hsk : 0 < sell_k) (hq : q1 < q2) :
    bidOffset gamma sigma_fix q1 sell_k sell_a <
        bidOffset gamma sigma_fix q2 sell_k sell_a ∧
      askOffset gamma sigma_fix q2 buy_k buy_a <
        askOffset gamma sigma_fix q1 buy_k buy_a := by
  have key : ∀ k a : ℝ, 0 < k → 0 < a →
      0 < Real.sqrt (sigma_fix * sigma_fix * gamma / (2 * k * a) *
        Real.rpow (1 + gamma / k) (1 + k / gamma)) := by
    intro k a hk ha
    apply Real.sqrt_pos.mpr
    apply mul_pos
    · exact div_pos (mul_pos (mul_self_pos.mpr hs) hg) (by positivity)
    · exact Real.rpow_pos_of_pos (by positivity) _
  constructor
  · have hpos := key sell_k sell_a hsk hsa
    have h2 := mul_lt_mul_of_pos_right (add_lt_add_right hq (0.5 : ℝ)) hpos
    unfold bidOffset
    linarith
  · have hpos := key buy_k buy_a hbk hba
    have h2 := mul_lt_mul_of_pos_right (sub_lt_sub_right hq (0.5 : ℝ)) hpos
    unfold askOffset
    linarith

/-- Witness for C7 at concrete parameters with q going from 0 to 1. -/
theorem c7_offsets_monotone_witness :
    (0 < (0.1 : ℝ) ∧ (0.01 : ℝ) ≠ 0 ∧ 0 < (0.4 : ℝ) ∧ 0 < (0.2 : ℝ) ∧
      (0 : ℝ) < 1) ∧
    (bidOffset 0.1 0.01 0 0.2 0.4 < bidOffset 0.1 0.01 1 0.2 0.4 ∧
      askOffset 0.1 0.01 1 0.2 0.4 < askOffset 0.1 0.01 0 0.2 0.4) :=
  ⟨⟨by norm_num, by norm_num, by norm_num, by norm_num, by norm_num⟩,
    c7_offsets_monotone 0.1 0.01 0 1 0.4 0.2 0.4 0.2 (by norm_num)
      (by norm_num) (by norm_num) (by norm_num) (by norm_num) (by norm_num)
      (by norm_num)⟩

/-- Claim C4: for every capacity `C > 0` and every push sequence of
length `n`, all nine series of the rolling window hold exactly
`min n C` elements (so the raw and derived series stay lock-step at
every instant), and the timestamp series is exactly the suffix of the
last `min n C` pushed timestamps: eviction is FIFO and hits every
series together. -/
theorem c4_window_shape (C : ℕ) (hC : 0 < C) (evs : List BookTickerEvent) :
    (evs.foldl StrategyData.push (StrategyData.with_capacity C)).timestamp =
      (evs.map BookTickerEvent.transaction_time).drop (evs.length - C) ∧
    (evs.foldl StrategyData.push
        (StrategyData.with_capacity C)).timestamp.length = min evs.length C ∧
    (evs.foldl StrategyData.push
        (StrategyData.with_capacity C)).ask_price.length = min evs.length C ∧
    (evs.foldl StrategyData.push
        (StrategyData.with_capacity C)).ask_qty.length = min evs.length C ∧
    (evs.foldl StrategyData.push
        (StrategyData.with_capacity C)).bid_price.length = min evs.length C ∧
    (evs.foldl StrategyData.push
        (StrategyData.with_capacity C)).bid_qty.length = min evs.length C ∧
    (evs.foldl StrategyData.push
        (StrategyData.with_capacity C)).wap.length = min evs.length C ∧
    (evs.foldl StrategyData.push
        (StrategyData.with_capacity C)).imb.length = min evs.length C ∧
    (evs.foldl StrategyData.push
        (StrategyData.with_capacity C)).spread.length = min evs.length C ∧
    (evs.foldl StrategyData.push
        (StrategyData.with_capacity C)).tv.length = min evs.length C ∧
    (evs.foldl StrategyData.push (StrategyData.with_capacity C)).capacity = C := by
  induction evs using List.reverseRecOn with
  | nil => simp [StrategyData.with_capacity]
  | append_singleton l e ih =>
    obtain ⟨hts, hlt, h1, h2, h3, h4, h5, h6, h7, h8, hcap⟩ := ih
    rw [List.foldl_append] at *
    set r := l.foldl StrategyData.push (StrategyData.with_capacity C) with hr
    simp only [List.foldl_cons, List.foldl_nil, List.length_append,
      List.map_append, List.map_cons, List.map_nil, List.length_cons,
      List.length_nil]
    simp only [StrategyData.push]
    split_ifs with hc
    · have hfull : C ≤ l.length := by
        rw [hlt, hcap] at hc; omega
      refine ⟨?_, ?_, ?_, ?_, ?_, ?_, ?_, ?_, ?_, ?_, ?_⟩
      · dsimp only
        rw [hts, List.tail_drop,
          List.drop_append_of_le_length (by rw [List.length_map]; omega)]
        congr 2
        omega
      all_goals
        simp only [List.length_append, List.length_tail, List.length_map,
          List.length_cons, List.length_nil, hlt, h1, h2, h3, h4, h5, h6,
          h7, h8, hcap]
      all_goals try omega
    · have hnot : l.length < C := by
        rw [hlt, hcap] at hc; omega
      refine ⟨?_, ?_, ?_, ?_, ?_, ?_, ?_, ?_, ?_, ?_, ?_⟩
      · dsimp only
        have e1 : l.length - C = 0 := by omega
        have e2 : l.length + 1 - C = 0 := by omega
        rw [hts, e1, e2, List.drop_zero, List.drop_zero]
      all_goals
        simp only [List.length_append, List.length_map, List.length_cons,
          List.length_nil, hlt, h1, h2, h3, h4, h5, h6, h7, h8, hcap]
      all_goals try omega

/-- Witness for C4: capacity 1, two pushes (the second one evicts the
first). -/
theorem c4_window_shape_witness :
    0 < 1 ∧
    ((c4evs.foldl StrategyData.push (StrategyData.with_capacity 1)).timestamp =
        (c4evs.map BookTickerEvent.transaction_time).drop (c4evs.length - 1) ∧
      (c4evs.foldl StrategyData.push
          (StrategyData.with_capacity 1)).timestamp.length = min c4evs.length 1 ∧
      (c4evs.foldl StrategyData.push
          (StrategyData.with_capacity 1)).ask_price.length = min c4evs.length 1 ∧
      (c4evs.foldl StrategyData.push
          (StrategyData.with_capacity 1)).ask_qty.length = min c4evs.length 1 ∧
      (c4evs.foldl StrategyData.push
          (StrategyData.with_capacity 1)).bid_price.length = min c4evs.length 1 ∧
      (c4evs.foldl StrategyData.push
          (StrategyData.with_capacity 1)).bid_qty.length = min c4evs.length 1 ∧
      (c4evs.foldl StrategyData.push
          (StrategyData.with_capacity 1)).wap.length = min c4evs.length 1 ∧
      (c4evs.foldl StrategyData.push
          (StrategyData.with_capacity 1)).imb.length = min c4evs.length 1 ∧
      (c4evs.foldl StrategyData.push
          (StrategyData.with_capacity 1)).spread.length = min c4evs.length 1 ∧
      (c4evs.foldl StrategyData.push
          (StrategyData.with_capacity 1)).tv.length = min c4evs.length 1 ∧
      (c4evs.foldl StrategyData.push
          (StrategyData.with_capacity 1)).capacity = 1) :=
  ⟨by norm_num, c4_window_shape 1 (by norm_num) c4evs⟩

/-- Claim C5: each push appends
`wap = (bid·ask_qty + ask·bid_qty)/(ask_qty + bid_qty)`,
`spread = ask − bid`, and `tv = |wap/oldest_wap − 1| + spread/wap` with
`oldest_wap` the front of the `wap` series after this push; on a
single-element window the first term of `tv` vanishes; and the spec's
Example 1 (capacity 3, four identical 100/101 ticks) yields `wap = 100.5`
throughout with the fourth `tv` about `0.00995`. -/
theorem c5_derived_values :
    (∀ (s : StrategyData) (e : BookTickerEvent),
        e.best_ask_qty + e.best_bid_qty ≠ 0 →
        ((s.push e).wap.getLastD 0 =
            (e.best_bid * e.best_ask_qty + e.best_ask * e.best_bid_qty) /
              (e.best_ask_qty + e.best_bid_qty) ∧
          (s.push e).spread.getLastD 0 = e.best_ask - e.best_bid ∧
          (s.push e).tv.getLastD 0 =
            |wapOf e / (s.push e).wap.headI - 1| +
              (e.best_ask - e.best_bid) / wapOf e)) ∧
    (∀ (s : StrategyData) (e : BookTickerEvent), s.wap = [] → wapOf e ≠ 0 →
        (s.push e).tv.getLastD 0 = (e.best_ask - e.best_bid) / wapOf e) ∧
    (c5window.wap = [201 / 2, 201 / 2, 201 / 2] ∧
      |c5window.tv.getLastD 0 - 0.00995| < 1 / 10 ^ 4) := by
  refine ⟨?_, ?_, ?_⟩
  · intro s e he
    refine ⟨?_, ?_, ?_⟩
    · simp only [StrategyData.push, List.getLastD_concat, wapOf]
      ring
    · simp only [StrategyData.push, List.getLastD_concat]
    · simp only [StrategyData.push, List.getLastD_concat]
  · intro s e hw hne
    simp [StrategyData.push, hw, div_self hne, apply_ite StrategyData.wap]
  · constructor
    · norm_num [c5window, StrategyData.push, StrategyData.with_capacity,
        c5tick, wapOf]
    · have htv : c5window.tv.getLastD 0 = 2 / 201 := by
        norm_num [c5window, StrategyData.push, StrategyData.with_capacity,
          c5tick, wapOf]
      rw [htv, abs_lt]
      norm_num

/-- Witness for C5 at a concrete tick with nonzero total quantity. -/
theorem c5_derived_values_witness :
    c5tick.best_ask_qty + c5tick.best_bid_qty ≠ 0 ∧
    (((StrategyData.with_capacity 3).push c5tick).wap.getLastD 0 =
        (c5tick.best_bid * c5tick.best_ask_qty +
            c5tick.best_ask * c5tick.best_bid_qty) /
          (c5tick.best_ask_qty + c5tick.best_bid_qty) ∧
      ((StrategyData.with_capacity 3).push c5tick).spread.getLastD 0 =
        c5tick.best_ask - c5tick.best_bid ∧
      ((StrategyData.with_capacity 3).push c5tick).tv.getLastD 0 =
        |wapOf c5tick /
            ((StrategyData.with_capacity 3).push c5tick).wap.headI - 1| +
          (c5tick.best_ask - c5tick.best_bid) / wapOf c5tick) :=
  ⟨by norm_num [c5tick],
    c5_derived_values.1 (StrategyData.with_capacity 3) c5tick
      (by norm_num [c5tick])⟩

/-- Claim C6: on a calibration-ready tick processed while quoting, the
unrealized PnL is set, before any transition logic, to
`(latest_wap · q)/(entry_price · q) − 1` when long, to the negation of
that same expression when short, and kept at its previous value when
flat; whenever the stoploss branch does not fire, this updated value is
the PnL of the post-tick state. -/
theorem c6_pnl_update (s : AvellanedaStoikov) (e : BookTickerEvent)
    (ba bk sa sk : ℝ) (hq : s.in_stoploss = false)
    (hns : ¬ ((if s.position.position_amount > 0 then
          wapOf e * s.position.position_amount /
            (s.position.entry_price * s.position.position_amount) - 1
        else if s.position.position_amount < 0 then
          -(wapOf e * s.position.position_amount /
            (s.position.entry_price * s.position.position_amount) - 1)
        else s.unrealized_pnl) < -s.stoploss)) :
    pnlAfter (s.on_tick e (some (ba, bk, sa, sk))) =
      some (if s.position.position_amount > 0 then
          wapOf e * s.position.position_amount /
            (s.position.entry_price * s.position.position_amount) - 1
        else if s.position.position_amount < 0 then
          -(wapOf e * s.position.position_amount /
            (s.position.entry_price * s.position.position_amount) - 1)
        else s.unrealized_pnl) := by
  have hpe : (if s.position.position_amount > 0 then
        wapOf e * s.position.position_amount /
          (s.position.entry_price * s.position.position_amount) - 1
      else if s.position.position_amount < 0 then
        -(wapOf e * s.position.position_amount /
          (s.position.entry_price * s.position.position_amount) - 1)
      else s.unrealized_pnl) =
      pnlUpdate s.unrealized_pnl (wapOf e) s.position.position_amount
        s.position.entry_price := rfl
  rw [hpe] at hns ⊢
  have hns' : ¬ (pnlUpdate (readyState s e ba bk sa sk).unrealized_pnl
      ((readyState s e ba bk sa sk).strategy_data.wap.getLastD 0)
      (readyState s e ba bk sa sk).position.position_amount
      (readyState s e ba bk sa sk).position.entry_price <
      -(readyState s e ba bk sa sk).stoploss) := by
    simpa [readyState, setAk, pushState, push_wap_last, push_wap_last'] using hns
  rw [on_tick_ready s e ba bk sa sk, hq, if_pos rfl]
  simp only [pnlAfter]
  rw [quotingStep_pnl _ e _ hns']
  simp [readyState, setAk, pushState, push_wap_last, push_wap_last']

/-- Witness for C6: a flat-PnL tick (wap 100 on a position entered at
100) keeps the engine out of the stoploss and exposes the updated PnL. -/
theorem c6_pnl_update_witness :
    egEngine.in_stoploss = false ∧
    pnlAfter (egEngine.on_tick egT100 (some (1, 1, 1, 1))) =
      some (if egEngine.position.position_amount > 0 then
          wapOf egT100 * egEngine.position.position_amount /
            (egEngine.position.entry_price *
              egEngine.position.position_amount) - 1
        else if egEngine.position.position_amount < 0 then
          -(wapOf egT100 * egEngine.position.position_amount /
            (egEngine.position.entry_price *
              egEngine.position.position_amount) - 1)
        else egEngine.unrealized_pnl) :=
  ⟨by simp [egEngine],
    c6_pnl_update egEngine egT100 1 1 1 1 (by simp [egEngine])
      (by norm_num [egEngine, egT100, wapOf])⟩

/-- Claim C1 (amended): while quoting, on a calibration-ready tick whose
updated unrealized PnL falls below `-stoploss`, the engine cancels all
resting orders for the pair, flattens via a single market order (sell of
the full position amount when long, buy of its absolute value otherwise),
resets the unrealized PnL to 0, raises `in_stoploss` and stamps the
tick's timestamp in seconds into `timer`. -/
theorem c1_stoploss_transition (s : AvellanedaStoikov) (e : BookTickerEvent)
    (ba bk sa sk : ℝ) (hq : s.in_stoploss = false)
    (hpnl : pnlUpdate s.unrealized_pnl (wapOf e) s.position.position_amount
        s.position.entry_price < -s.stoploss) :
    pnlAfter (s.on_tick e (some (ba, bk, sa, sk))) = some 0 ∧
    inStoplossAfter (s.on_tick e (some (ba, bk, sa, sk))) = some true ∧
    timerAfter (s.on_tick e (some (ba, bk, sa, sk))) =
      some (e.transaction_time / 1000) ∧
    actionsAfter (s.on_tick e (some (ba, bk, sa, sk))) =
      some (Action.cancelAll s.pair ::
        (if s.position.position_amount > 0 then
           [Action.marketSell s.pair s.position.position_amount]
         else [Action.marketBuy s.pair (abs s.position.position_amount)])) := by
  have hpnl' : pnlUpdate (readyState s e ba bk sa sk).unrealized_pnl
      ((readyState s e ba bk sa sk).strategy_data.wap.getLastD 0)
      (readyState s e ba bk sa sk).position.position_amount
      (readyState s e ba bk sa sk).position.entry_price <
      -(readyState s e ba bk sa sk).stoploss := by
    simpa [readyState, setAk, pushState, push_wap_last, push_wap_last'] using hpnl
  rw [on_tick_ready s e ba bk sa sk, hq, if_pos rfl,
    quotingStep_stoploss _ e _ hpnl']
  refine ⟨?_, ?_, ?_, ?_⟩ <;>
    simp [pnlAfter, inStoplossAfter, timerAfter, actionsAfter, readyState,
      setAk, pushState]

/-- Witness for C1 at the spec's Example 3: long 5 at entry 100, tick wap
97, stoploss 2% — the engine cancels, market-sells 5, zeroes the PnL,
raises the flag and stamps `timer = 1`. -/
theorem c1_stoploss_transition_witness :
    egEngine.in_stoploss = false ∧
    pnlUpdate egEngine.unrealized_pnl (wapOf egT97)
        egEngine.position.position_amount egEngine.position.entry_price <
      -egEngine.stoploss ∧
    (pnlAfter (egEngine.on_tick egT97 (some (1, 1, 1, 1))) = some 0 ∧
      inStoplossAfter (egEngine.on_tick egT97 (some (1, 1, 1, 1))) =
        some true ∧
      timerAfter (egEngine.on_tick egT97 (some (1, 1, 1, 1))) =
        some (egT97.transaction_time / 1000) ∧
      actionsAfter (egEngine.on_tick egT97 (some (1, 1, 1, 1))) =
        some (Action.cancelAll egEngine.pair ::
          (if egEngine.position.position_amount > 0 then
             [Action.marketSell egEngine.pair
               egEngine.position.position_amount]
           else
             [Action.marketBuy egEngine.pair
               (abs egEngine.position.position_amount)]))) :=
  ⟨by simp [egEngine], by norm_num [pnlUpdate, wapOf, egEngine, egT97],
    c1_stoploss_transition egEngine egT97 1 1 1 1 (by simp [egEngine])
      (by norm_num [pnlUpdate, wapOf, egEngine, egT97])⟩

/-- Counterexample for C1 as stated: at the claim's example input
(latest_wap 97, position 5, entry 100) the computed unrealized PnL is
exactly −0.03; it misses the claimed −0.0309 by 0.0009, beyond a 0.0005
tolerance for three significant digits. -/
theorem c1_pnl_value_counterexample :
    pnlUpdate 0 97 5 100 = -(3 / 100) ∧
    ¬ (|pnlUpdate 0 97 5 100 + 309 / 10000| ≤ 1 / 2000) := by
  constructor
  · norm_num [pnlUpdate]
  · intro hcontra
    rw [show (pnlUpdate 0 97 5 100 : ℝ) = -(3 / 100) by
      norm_num [pnlUpdate]] at hcontra
    rw [abs_le] at hcontra
    norm_num at hcontra

/-- Claim C2 (amended): during the stoploss cooldown, a calibration-ready
tick (with no `u64` underflow in the sleep comparison) clears the flag
exactly when the tick's truncated-second time `t / 1000` has reached
`timer + stoploss_sleep / 1000`; in particular for a trigger at `T` ms
(`timer = T / 1000`) the exit happens no later than any tick with
`T + stoploss_sleep ≤ t` — though, by second truncation, possibly on
strictly earlier ticks. -/
theorem c2_cooldown_exit (s : AvellanedaStoikov) (e : BookTickerEvent)
    (ba bk sa sk : ℝ) (hin : s.in_stoploss = true)
    (ht : e.transaction_time / 1000 < 2 ^ 64)
    (hs : s.stoploss_sleep / 1000 ≤ e.transaction_time / 1000) :
    (inStoplossAfter (s.on_tick e (some (ba, bk, sa, sk))) = some false ↔
      s.timer + s.stoploss_sleep / 1000 ≤ e.transaction_time / 1000) ∧
    (∀ T : ℕ, s.timer = T / 1000 →
      T + s.stoploss_sleep ≤ e.transaction_time →
      inStoplossAfter (s.on_tick e (some (ba, bk, sa, sk))) = some false) := by
  have hw : wsub (e.transaction_time / 1000) (s.stoploss_sleep / 1000) =
      e.transaction_time / 1000 - s.stoploss_sleep / 1000 :=
    wsub_eq_sub _ _ ht hs
  have hR1 : (readyState s e ba bk sa sk).timer = s.timer := by
    simp [readyState, setAk, pushState]
  have hR2 : (readyState s e ba bk sa sk).stoploss_sleep =
      s.stoploss_sleep := by
    simp [readyState, setAk, pushState]
  have hR3 : (readyState s e ba bk sa sk).in_stoploss = s.in_stoploss := by
    simp [readyState, setAk, pushState]
  rw [on_tick_ready s e ba bk sa sk, hin,
    if_neg (by simp : ¬ (true = false))]
  simp only [cooldownStep, hR1, hR2, hR3, hin, hw]
  constructor
  · by_cases hcond :
        s.timer ≤ e.transaction_time / 1000 - s.stoploss_sleep / 1000
    · rw [if_pos hcond]
      simp only [inStoplossAfter]
      simp
      omega
    · rw [if_neg hcond]
      simp only [inStoplossAfter]
      simp [hR3, hin]
      omega
  · intro T hT hTe
    have hcond :
        s.timer ≤ e.transaction_time / 1000 - s.stoploss_sleep / 1000 := by
      rw [hT]
      omega
    rw [if_pos hcond]
    simp [inStoplossAfter]

/-- Witness for C2 at a concrete cooldown state: timer 5 s, sleep
3000 ms, tick at 9000 ms. -/
theorem c2_cooldown_exit_witness :
    egCooldownW.in_stoploss = true ∧
    egT9000.transaction_time / 1000 < 2 ^ 64 ∧
    egCooldownW.stoploss_sleep / 1000 ≤ egT9000.transaction_time / 1000 ∧
    (inStoplossAfter (egCooldownW.on_tick egT9000 (some (1, 1, 1, 1))) =
          some false ↔
      egCooldownW.timer + egCooldownW.stoploss_sleep / 1000 ≤
        egT9000.transaction_time / 1000) ∧
    egCooldownW.timer = 5000 / 1000 ∧
    5000 + egCooldownW.stoploss_sleep ≤ egT9000.transaction_time ∧
    inStoplossAfter (egCooldownW.on_tick egT9000 (some (1, 1, 1, 1))) =
      some false :=
  ⟨by simp [egCooldownW, egEngine], by norm_num [egT9000],
    by norm_num [egCooldownW, egEngine, egT9000],
    (c2_cooldown_exit egCooldownW egT9000 1 1 1 1
        (by simp [egCooldownW, egEngine]) (by norm_num [egT9000])
        (by norm_num [egCooldownW, egEngine, egT9000])).1,
    by norm_num [egCooldownW, egEngine],
    by norm_num [egCooldownW, egEngine, egT9000],
    (c2_cooldown_exit egCooldownW egT9000 1 1 1 1
        (by simp [egCooldownW, egEngine]) (by norm_num [egT9000])
        (by norm_num [egCooldownW, egEngine, egT9000])).2 5000
      (by norm_num [egCooldownW, egEngine])
      (by norm_num [egCooldownW, egEngine, egT9000])⟩

/-- Counterexample for C2 as stated: a stoploss trigger at `T = 1999` ms
stamps `timer = 1999 / 1000 = 1`; the very next tick at 2000 ms already
clears the cooldown even though `2000 < T + stoploss_sleep = 2999` —
the exit can occur strictly earlier than `stoploss_sleep` ms after the
trigger. -/
theorem c2_early_exit_counterexample :
    egCooldown.in_stoploss = true ∧
    egCooldown.timer = 1999 / 1000 ∧
    egCooldown.stoploss_sleep = 1000 ∧
    egT2000.transaction_time = 2000 ∧
    2000 < 1999 + 1000 ∧
    inStoplossAfter (egCooldown.on_tick egT2000 (some (1, 1, 1, 1))) =
      some false := by
  refine ⟨by simp [egCooldown, egEngine], by simp [egCooldown, egEngine],
    by simp [egCooldown, egEngine], rfl, by norm_num, ?_⟩
  rw [on_tick_ready egCooldown egT2000 1 1 1 1,
    (by simp [egCooldown, egEngine] : egCooldown.in_stoploss = true),
    if_neg (by simp : ¬ (true = false))]
  have hcond : (readyState egCooldown egT2000 1 1 1 1).timer ≤
      wsub (egT2000.transaction_time / 1000)
        ((readyState egCooldown egT2000 1 1 1 1).stoploss_sleep / 1000) := by
    norm_num [readyState, setAk, pushState, egCooldown, egEngine, egT2000,
      wsub]
  simp only [cooldownStep, if_pos hcond, inStoplossAfter]

/-- Claim C8 (amended): `calculate_spread` deterministically returns the
ask/bid offsets built from the freshly computed mean turnover, and leaves
every field of the engine state unchanged except `sigma`, which it
overwrites with that mean turnover. -/
theorem c8_spread_effect (s : AvellanedaStoikov)
    (h : s.strategy_data.tv ≠ []) :
    s.calculate_spread =
      some (⟨askOffset s.gamma
               (s.strategy_data.tv.sum / (s.strategy_data.tv.length : ℝ) *
                 s.sigma_multiplier)
               (s.position.position_amount / s.order_qty) s.buy_k s.buy_a,
             bidOffset s.gamma
               (s.strategy_data.tv.sum / (s.strategy_data.tv.length : ℝ) *
                 s.sigma_multiplier)
               (s.position.position_amount / s.order_qty) s.sell_k
               s.sell_a⟩,
            { s with sigma :=
                s.strategy_data.tv.sum / (s.strategy_data.tv.length : ℝ) }) :=
  calculate_spread_of_ne s h

/-- Witness for C8 at a concrete one-element window. -/
theorem c8_spread_effect_witness :
    egEngineW1.strategy_data.tv ≠ [] ∧
    egEngineW1.calculate_spread =
      some (⟨askOffset egEngineW1.gamma
               (egEngineW1.strategy_data.tv.sum /
                   (egEngineW1.strategy_data.tv.length : ℝ) *
                 egEngineW1.sigma_multiplier)
               (egEngineW1.position.position_amount / egEngineW1.order_qty)
               egEngineW1.buy_k egEngineW1.buy_a,
             bidOffset egEngineW1.gamma
               (egEngineW1.strategy_data.tv.sum /
                   (egEngineW1.strategy_data.tv.length : ℝ) *
                 egEngineW1.sigma_multiplier)
               (egEngineW1.position.position_amount / egEngineW1.order_qty)
               egEngineW1.sell_k egEngineW1.sell_a⟩,
            { egEngineW1 with sigma :=
                egEngineW1.strategy_data.tv.sum /
                  (egEngineW1.strategy_data.tv.length : ℝ) }) :=
  ⟨by simp [egEngineW1, egEngine, egWindow1],
    c8_spread_effect egEngineW1 (by simp [egEngineW1, egEngine, egWindow1])⟩

/-- Counterexample for C8 as stated: `calculate_spread` is not
side-effect-free — on a state with `sigma = 1` whose window's mean
turnover is 1/2, the returned state's `sigma` has changed to 1/2. -/
theorem c8_sigma_mutation_counterexample :
    egEngineW1.sigma = 1 ∧
    sigmaAfterSpread egEngineW1.calculate_spread = some (1 / 2) ∧
    (1 / 2 : ℝ) ≠ 1 := by
  refine ⟨by simp [egEngineW1, egEngine], ?_, by norm_num⟩
  rw [calculate_spread_of_ne egEngineW1
    (by simp [egEngineW1, egEngine, egWindow1])]
  norm_num [sigmaAfterSpread, egEngineW1, egEngine, egWindow1]

lemma cash_foldl_unchanged (pair : String) (c : ℝ) (bs : List Balance)
    (h : ∀ b ∈ bs, b.asset ≠ pair) :
    bs.foldl
      (fun c b => if b.asset = pair then b.cross_wallet_balance else c)
      c = c := by
  induction bs generalizing c with
  | nil => rfl
  | cons b bs ih =>
    rw [List.foldl_cons, if_neg (h b (List.mem_cons_self b bs))]
    exact ih c (fun x hx => h x (List.mem_cons_of_mem b hx))

lemma string_empty_of_length (s : String) (h : s.length = 0) : s = "" := by
  rcases s with ⟨d⟩
  cases d with
  | nil => rfl
  | cons a l => simp [String.length] at h

/-- Claim C10: `on_account` modifies `cash` only when some balance
entry's asset equals the full concatenated pair string
(base asset followed by quote asset); balance entries for the quote
asset (or base asset) alone leave `cash` unchanged. -/
theorem c10_cash_matches_pair (s : AvellanedaStoikov)
    (hp : s.pair = s.base_asset ++ s.quote_asset)
    (hb : s.base_asset ≠ "") (hq : s.quote_asset ≠ "") :
    (∀ d : AccountUpdateEvent,
        (∀ b ∈ d.account_update.balances, b.asset ≠ s.pair) →
        (s.on_account d).cash = s.cash) ∧
    (∀ d : AccountUpdateEvent,
        (∀ b ∈ d.account_update.balances,
            b.asset = s.base_asset ∨ b.asset = s.quote_asset) →
        (s.on_account d).cash = s.cash) := by
  have hb' : s.base_asset ≠ s.pair := by
    rw [hp]
    intro hcontra
    have hlen : s.base_asset.length =
        (s.base_asset ++ s.quote_asset).length := by rw [← hcontra]
    rw [String.length_append] at hlen
    have hz : s.quote_asset.length = 0 := by omega
    exact hq (string_empty_of_length _ hz)
  have hq' : s.quote_asset ≠ s.pair := by
    rw [hp]
    intro hcontra
    have hlen : s.quote_asset.length =
        (s.base_asset ++ s.quote_asset).length := by rw [← hcontra]
    rw [String.length_append] at hlen
    have hz : s.base_asset.length = 0 := by omega
    exact hb (string_empty_of_length _ hz)
  have hcash : ∀ d : AccountUpdateEvent, (s.on_account d).cash =
      d.account_update.balances.foldl
        (fun c b => if b.asset = s.pair then b.cross_wallet_balance else c)
        s.cash := fun d => rfl
  constructor
  · intro d hd
    rw [hcash d]
    exact cash_foldl_unchanged s.pair s.cash _ hd
  · intro d hd
    rw [hcash d]
    refine cash_foldl_unchanged s.pair s.cash _ ?_
    intro b hbmem
    rcases hd b hbmem with h | h
    · rw [h]; exact hb'
    · rw [h]; exact hq'

/-- Witness for C10: a balance entry for the quote asset alone leaves
`cash` untouched. -/
theorem c10_cash_matches_pair_witness :
    egEngine.pair = egEngine.base_asset ++ egEngine.quote_asset ∧
    egEngine.base_asset ≠ "" ∧
    egEngine.quote_asset ≠ "" ∧
    (∀ b ∈ egAccountQuote.account_update.balances,
        b.asset = egEngine.base_asset ∨ b.asset = egEngine.quote_asset) ∧
    (egEngine.on_account egAccountQuote).cash = egEngine.cash :=
  ⟨by simp [egEngine], by simp [egEngine], by simp [egEngine],
    by
      intro b hbm
      simp [egAccountQuote] at hbm
      subst hbm
      simp [egEngine, egAccountQuote],
    (c10_cash_matches_pair egEngine (by simp [egEngine])
        (by simp [egEngine]) (by simp [egEngine])).2 egAccountQuote
      (by
        intro b hbm
        simp [egAccountQuote] at hbm
        subst hbm
        simp [egEngine, egAccountQuote])⟩

end Rainmaker
